import Mathlib

/-!
# Verification of the classical-performance-analyzer analysis engine

Shallow embedding of `src/backend/analysis.py`.  Rational numbers stand in
for Python floats wherever the source does exact-looking arithmetic
(comparisons, means, clipping); `ℝ` with `Real.logb` models the decibel
conversion.  External collaborators (librosa's loader, trimmer, beat
tracker, RMS extractor and DTW primitive) enter as explicit oracle
arguments, mirroring the spec's "excluded collaborators" boundary.
-/

set_option linter.unusedVariables false

/-! ## Tempo analysis data model (`analyze_tempo` result dictionary) -/

/-- One point of the tempo curve (`tempo_curve` entries, analysis.py lines
148-161): raw instantaneous bpm, musical (octave-corrected) bpm, and the
two smoothed series added in the loop at lines 159-161. -/
structure TempoPoint where
  t : ℚ
  bpm : ℚ
  bpm_musical : ℚ
  bpm_smooth : ℚ
  bpm_musical_smooth : ℚ
deriving Repr, DecidableEq

/-- The `tempo_interpretations` dictionary (analysis.py lines 133-140 and the
degenerate variant at lines 95-102). -/
structure TempoInterp where
  as_detected_bpm : ℚ
  half_time_bpm : ℚ
  double_time_bpm : ℚ
  recommended_bpm : ℚ
  recommended_label : String
  reason : String
deriving Repr, DecidableEq

/-- A `tempo_instability` event (analysis.py lines 174-181). -/
structure TempoEvent where
  t_start : ℚ
  t_end : ℚ
  type : String
  severity : ℚ
deriving Repr, DecidableEq

/-- The `summary` sub-dictionary (analysis.py lines 189-193).  The
coefficient of variation is `std/mean`, hence real-valued (`np.std` takes a
square root); `none` models Python's `None`. -/
structure TempoSummary where
  avg_bpm : ℚ
  bpm_variance : ℚ
  tempo_stability_cv : Option ℝ

/-- The beat-derived part of the `analyze_tempo` result (everything except
durations and trim metadata, which the signal-level wrapper adds). -/
structure TempoCore where
  tempo_curve : List TempoPoint
  summary : TempoSummary
  tempo_interpretations : TempoInterp
  events : List TempoEvent

/-! ## Helpers shared by the tempo pipeline -/

/-- `np.clip(x, lo, hi)` for scalars. -/
def clipQ (x lo hi : ℚ) : ℚ := min (max x lo) hi

/-- `np.mean` over a rational list (sum divided by length; division by zero
yields `0` in Lean where numpy would yield NaN — no claim touches the empty
case). -/
def meanQ (l : List ℚ) : ℚ := l.sum / l.length

/-- `np.var`: mean of squared deviations from the mean. -/
def varQ (l : List ℚ) : ℚ := meanQ (l.map (fun x => (x - meanQ l) ^ 2))

/-- `np.diff(beat_times)` (analysis.py line 106). -/
def diffsOf (beat_times : List ℚ) : List ℚ :=
  (beat_times.zip beat_times.tail).map (fun p => p.2 - p.1)

/-- Instantaneous BPM series (analysis.py lines 106-110):
`bpm_inst = 60 / np.clip(ibi, 1e-6, None)` followed by
`np.clip(bpm_inst, 40.0, 240.0)`. -/
def bpmInstOf (beat_times : List ℚ) : List ℚ :=
  (diffsOf beat_times).map (fun d => clipQ (60 / max d (1e-6 : ℚ)) 40 240)

/-- Midpoint times `t_mid = (beat_times[:-1] + beat_times[1:]) / 2`
(analysis.py line 108). -/
def tMidOf (beat_times : List ℚ) : List ℚ :=
  (beat_times.zip beat_times.tail).map (fun p => (p.1 + p.2) / 2)

/-- `_moving_average` (analysis.py lines 25-31): length-preserving
`np.convolve(x, ones(w)/w, mode="same")`; inputs shorter than the window are
returned unchanged.  `mode="same"` takes the centred slice of the full
convolution, so `out[i]` sums `x[m]` for `m ∈ [i-(w-1)/2, i+(w-1)/2]`
clipped to the index range, always divided by `w`. -/
def movingAverage (x : List ℚ) (w : ℕ) : List ℚ :=
  if x.length = 0 then x
  else if x.length < w then x
  else
    (List.range x.length).map (fun i =>
      (((List.range w).map (fun j =>
        let m : ℤ := (i : ℤ) + ((w - 1) / 2 : ℕ) - (j : ℤ)
        if 0 ≤ m ∧ m < (x.length : ℤ) then x.getD m.toNat 0 else 0)).sum) / (w : ℚ))

/-- Octave disambiguation (analysis.py lines 117-140): candidates
`as_detected`, `half_time`, `double_time`, chosen by the ordered guard
chain at lines 125-131, defaulting to as-detected. -/
def tempoInterpretationsOf (avg_bpm : ℚ) : TempoInterp :=
  let as_detected := avg_bpm
  let half_time := as_detected / 2
  let double_time := as_detected * 2
  let best :=
    if 90 ≤ as_detected ∧ as_detected ≤ 180 ∧ 40 ≤ half_time ∧ half_time ≤ 110 then
      ("half_time_bpm", half_time,
        "Detected pulse likely reflects subdivisions; half-time lands in a more plausible musical tempo range.")
    else if 40 ≤ as_detected ∧ as_detected ≤ 120 then
      ("as_detected_bpm", as_detected, "Recommended tempo chosen by heuristic.")
    else if 40 ≤ double_time ∧ double_time ≤ 120 then
      ("double_time_bpm", double_time, "Recommended tempo chosen by heuristic.")
    else
      ("as_detected_bpm", as_detected, "Recommended tempo chosen by heuristic.")
  { as_detected_bpm := as_detected
    half_time_bpm := half_time
    double_time_bpm := double_time
    recommended_bpm := best.2.1
    recommended_label := best.1
    reason := best.2.2 }

/-! ## Instability event detection (analysis.py lines 163-182)

The loop keeps an optional run start index; a run is closed when a good
point arrives or at the last sample (closed inclusively).  We embed the
loop as a scan carrying the currently open run of `(t_mid, dev)` pairs:
the run corresponds exactly to the slice `[start, i)` of the source. -/

/-- Closing an open run (analysis.py lines 172-181): runs of length `≥ 2`
emit one event spanning the first to last midpoint time of the run with
`severity = min(1, mean(dev over run) / 0.30)`. -/
def closeRun (run : List (ℚ × ℚ)) : List TempoEvent :=
  if 2 ≤ run.length then
    [{ t_start := (run.headD (0, 0)).1
       t_end := (run.getLastD (0, 0)).1
       type := "tempo_instability"
       severity := min 1 (meanQ (run.map Prod.snd) / (0.30 : ℚ)) }]
  else []

/-- `mask = dev > 0.15` (analysis.py line 166): a point of the `(t_mid, dev)`
series is "bad" when its relative deviation exceeds 0.15. -/
def badB (p : ℚ × ℚ) : Bool := (0.15 : ℚ) < p.2

/-- The event-detection loop: `run` is the currently open run (empty when
`start is None`); a bad point (`dev > 0.15`) extends it, a good point or the
end of the sequence closes it. -/
def eventsAux : List (ℚ × ℚ) → List (ℚ × ℚ) → List TempoEvent
  | run, [] => closeRun run
  | run, p :: rest =>
    if badB p then eventsAux (run ++ [p]) rest
    else closeRun run ++ eventsAux [] rest

/-- Events from the `(t_mid, dev)` series, starting with no open run. -/
def codeEvents (pts : List (ℚ × ℚ)) : List TempoEvent := eventsAux [] pts

/-- Relative deviations `dev = |bpm - avg| / avg` (analysis.py line 165). -/
def devSeriesOf (bpm : List ℚ) (avg : ℚ) : List ℚ :=
  bpm.map (fun b => |b - avg| / avg)

/-- Guarded event detection (analysis.py line 164): only runs when the
instantaneous series has at least 3 points and a positive mean. -/
def eventsOf (bpm t_mid : List ℚ) : List TempoEvent :=
  let avg := meanQ bpm
  if 3 ≤ bpm.length ∧ 0 < avg then
    codeEvents (t_mid.zip (devSeriesOf bpm avg))
  else []

/-- Beat-level tempo analysis (analysis.py lines 88-196), taking the
external beat tracker's outputs (aggregate tempo estimate and beat
timestamps in seconds) as inputs. -/
noncomputable def tempoFromBeats (tempo_est : ℚ) (beat_times : List ℚ) : TempoCore :=
  if beat_times.length < 3 then
    { tempo_curve := []
      summary := { avg_bpm := tempo_est, bpm_variance := 0, tempo_stability_cv := none }
      tempo_interpretations :=
        { as_detected_bpm := tempo_est
          half_time_bpm := tempo_est / 2
          double_time_bpm := tempo_est * 2
          recommended_bpm := tempo_est
          recommended_label := "as_detected_bpm"
          reason := "Not enough beats detected to infer a stable curve." }
      events := [] }
  else
    let bpm_inst := bpmInstOf beat_times
    let t_mid := tMidOf beat_times
    let avg_bpm := meanQ bpm_inst
    let bpm_variance := varQ bpm_inst
    let cv : Option ℝ :=
      if (1e-9 : ℚ) < avg_bpm then
        some (Real.sqrt (bpm_variance : ℝ) / (avg_bpm : ℝ))
      else none
    let interp := tempoInterpretationsOf avg_bpm
    let scale : ℚ :=
      if interp.recommended_label = "half_time_bpm" then 1 / 2
      else if interp.recommended_label = "double_time_bpm" then 2
      else 1
    let bpm_smooth := movingAverage bpm_inst 7
    let bpm_mus_smooth := movingAverage (bpm_inst.map (· * scale)) 7
    let curve : List TempoPoint :=
      (List.range (t_mid.zip bpm_inst).length).map (fun i =>
        { t := t_mid.getD i 0
          bpm := bpm_inst.getD i 0
          bpm_musical := bpm_inst.getD i 0 * scale
          bpm_smooth := bpm_smooth.getD i 0
          bpm_musical_smooth := bpm_mus_smooth.getD i 0 })
    { tempo_curve := curve
      summary :=
        { avg_bpm := if 0 < avg_bpm then avg_bpm else tempo_est
          bpm_variance := bpm_variance
          tempo_stability_cv := cv }
      tempo_interpretations := interp
      events := eventsOf bpm_inst t_mid }

/-- Spec-side description of instability events (spec §4.2 step 8), the
refinement target for the loop above: split the series into maximal
contiguous runs of bad points; each run of length `≥ 2` becomes exactly one
event (first-to-last midpoint span, `severity = min(1, mean dev / 0.30)`). -/
def specEvents : List (ℚ × ℚ) → List TempoEvent
  | [] => []
  | p :: rest =>
    if badB p then
      closeRun (p :: rest.takeWhile badB) ++ specEvents (rest.dropWhile badB)
    else specEvents rest
termination_by l => l.length
decreasing_by
  · simp only [List.length_cons]
    exact Nat.lt_succ_of_le (List.dropWhile_sublist _).length_le
  · simp

/-! ## Curve resampling (`resample_curve`, analysis.py lines 34-49) -/

/-- Sorting the curve by time (`np.argsort(t)`; time points are distinct in
every claim below, so sort stability is irrelevant). -/
def sortByT (pts : List (ℚ × ℚ)) : List (ℚ × ℚ) :=
  List.insertionSort (fun p q => p.1 ≤ q.1) pts

/-- `np.interp(g, t, y)` for a single query on an already-sorted curve:
constant below the first node and above the last, linear in between. -/
def interpQ : ℚ → List (ℚ × ℚ) → ℚ
  | _, [] => 0
  | _, [p] => p.2
  | g, p :: q :: rest =>
    if g ≤ p.1 then p.2
    else if g ≤ q.1 then p.2 + (q.2 - p.2) * (g - p.1) / (q.1 - p.1)
    else interpQ g (q :: rest)

/-- `resample_curve(points, t_key, y_key, grid_t)` (analysis.py lines 34-49):
empty input yields empty output; otherwise sort by `t`, clamp the grid to
`[t[0], t[-1]]`, and linearly interpolate. -/
def resample_curve (pts : List (ℚ × ℚ)) (grid : List ℚ) : List ℚ :=
  if pts = [] then []
  else
    let s := sortByT pts
    let lo := (s.headD (0, 0)).1
    let hi := (s.getLastD (0, 0)).1
    (grid.map (fun g => clipQ g lo hi)).map (fun g => interpQ g s)

/-! ## DTW comparison (`compare_recordings_dtw`, analysis.py lines 249-357) -/

/-- A tempo-curve point as received by the comparison (a plain dict in the
source, so each bpm key may be absent).  Source dict access on a missing key
would raise `KeyError`; the `Option` fields model key presence and the
accessors below default to `0` on branches no claim reaches. -/
structure TempoPointIn where
  t : ℚ
  bpm : Option ℚ
  bpm_musical : Option ℚ
  bpm_smooth : Option ℚ
  bpm_musical_smooth : Option ℚ
deriving Repr, DecidableEq

/-- The slice of a per-recording analysis result that
`compare_recordings_dtw` reads. -/
structure AnalysisIn where
  loudness_curve : List (ℚ × ℚ)
  duration_sec_trimmed : ℚ
  tempo_curve : List TempoPointIn
  recommended_bpm : Option ℚ
  mean_db : Option ℚ
deriving Repr, DecidableEq

/-- `np.arange(start, stop, step)`: `start + k*step` for
`k < ⌈(stop-start)/step⌉`. -/
def arangeQ (start stop step : ℚ) : List ℚ :=
  (List.range (⌈(stop - start) / step⌉ : ℤ).toNat).map (fun k => start + k * step)

/-- `pick_tempo_key` (analysis.py lines 301-308): first present key on the
first curve point, in preference order, defaulting to `"bpm"`. -/
def pickTempoKey (curve : List TempoPointIn) : String :=
  match curve with
  | [] => "bpm"
  | p :: _ =>
    if p.bpm_musical_smooth.isSome then "bpm_musical_smooth"
    else if p.bpm_musical.isSome then "bpm_musical"
    else if p.bpm_smooth.isSome then "bpm_smooth"
    else "bpm"

/-- Value of the selected tempo key on one point (`p[key]` in the source). -/
def tempoVal (key : String) (p : TempoPointIn) : ℚ :=
  if key = "bpm_musical_smooth" then p.bpm_musical_smooth.getD 0
  else if key = "bpm_musical" then p.bpm_musical.getD 0
  else if key = "bpm_smooth" then p.bpm_smooth.getD 0
  else p.bpm.getD 0

/-- Path reduction to unique student indices, first match wins
(analysis.py lines 281-286); `seen` is the visited set. -/
def reducePairsAux (seen : List ℕ) : List (ℕ × ℕ) → List (ℕ × ℕ)
  | [] => []
  | p :: rest =>
    if p.1 ∈ seen then reducePairsAux seen rest
    else p :: reducePairsAux (p.1 :: seen) rest

/-- `reducePairs` walks the forward-ordered path with an empty visited set. -/
def reducePairs (l : List (ℕ × ℕ)) : List (ℕ × ℕ) := reducePairsAux [] l

/-- The aligned difference curves of the comparison payload. -/
structure CompareCurves where
  t : List ℚ
  student_t : List ℚ
  ref_t : List ℚ
  tempo_diff : List ℚ
  loudness_diff_db : List ℚ
deriving Repr, DecidableEq

/-- The successful comparison payload (analysis.py lines 332-357). -/
structure CompareResult where
  overlap_sec : ℚ
  grid_hz : ℤ
  tempo_student_key : String
  tempo_reference_key : String
  mean_abs_bpm_diff : ℚ
  recommended_bpm_diff : Option ℚ
  loud_mean_abs_db_diff : ℚ
  loud_student_mean_db : Option ℚ
  loud_reference_mean_db : Option ℚ
  curves : CompareCurves
  notes : List String
deriving Repr, DecidableEq

/-- Outcome of `compare_recordings_dtw`: either the structured error dict
`{"error": msg}` or the full payload. -/
inductive CompareOut where
  | err : String → CompareOut
  | ok : CompareResult → CompareOut
deriving Repr, DecidableEq

/-- Whether the outcome is the structured error payload. -/
def CompareOut.isErr : CompareOut → Bool
  | .err _ => true
  | .ok _ => false

/-- `compare_recordings_dtw(student, reference)` (analysis.py lines 249-357).
The DTW primitive (`librosa.sequence.dtw`, an excluded collaborator) enters
as the oracle argument `wp`, the warping path in the primitive's
back-to-front order; the source reverses it (`wp[::-1]`) before reducing. -/
def compareRecordingsDtw (student reference : AnalysisIn)
    (wp : List (ℕ × ℕ)) : CompareOut :=
  if student.loudness_curve = [] ∨ reference.loudness_curve = [] then
    .err "Missing loudness curves for DTW alignment."
  else
    let ds : ℚ := 1 / 10
    let s_dur := student.duration_sec_trimmed
    let r_dur := reference.duration_sec_trimmed
    if s_dur ≤ 0 ∨ r_dur ≤ 0 then .err "Non-positive trimmed durations."
    else
      let s_times := arangeQ 0 s_dur ds
      let r_times := arangeQ 0 r_dur ds
      let s_l := resample_curve student.loudness_curve s_times
      let r_l := resample_curve reference.loudness_curve r_times
      if s_l = [] ∨ r_l = [] then .err "Failed to resample loudness curves."
      else
        let pairs := reducePairs wp.reverse
        if pairs.length < 10 then .err "DTW path too short to compare reliably."
        else
          let s_key := pickTempoKey student.tempo_curve
          let r_key := pickTempoKey reference.tempo_curve
          let s_t := resample_curve
            (student.tempo_curve.map (fun p => (p.t, tempoVal s_key p))) s_times
          let r_t := resample_curve
            (reference.tempo_curve.map (fun p => (p.t, tempoVal r_key p))) r_times
          if s_t = [] ∨ r_t = [] then .err "Missing tempo curves for DTW comparison."
          else
            let tempo_diff := pairs.map (fun p => s_t.getD p.1 0 - r_t.getD p.2 0)
            let loud_diff := pairs.map (fun p => s_l.getD p.1 0 - r_l.getD p.2 0)
            .ok
              { overlap_sec := min s_dur r_dur
                grid_hz := round ((1 : ℚ) / ds)
                tempo_student_key := s_key
                tempo_reference_key := r_key
                mean_abs_bpm_diff := meanQ (tempo_diff.map (|·|))
                recommended_bpm_diff :=
                  match student.recommended_bpm, reference.recommended_bpm with
                  | some a, some b => some (a - b)
                  | _, _ => none
                loud_mean_abs_db_diff := meanQ (loud_diff.map (|·|))
                loud_student_mean_db := student.mean_db
                loud_reference_mean_db := reference.mean_db
                curves :=
                  { t := pairs.map (fun p => s_times.getD p.1 0)
                    student_t := pairs.map (fun p => s_times.getD p.1 0)
                    ref_t := pairs.map (fun p => r_times.getD p.2 0)
                    tempo_diff := tempo_diff
                    loudness_diff_db := loud_diff }
                notes :=
                  ["DTW alignment uses loudness as a proxy for musical progress (v1).",
                   "Differences may still be skewed by pedaling/room noise and long sustains."] }

/-! ## Loudness analysis (`analyze_loudness`, analysis.py lines 202-243)

The RMS frame energies come from the external collaborator
`librosa.feature.rms`; the engine floors them, picks the loudest frame as
reference, and converts to decibels with `librosa.amplitude_to_db`, whose
documented semantics (power = amplitude², `amin = 1e-5`, `top_db = 80`) are
embedded below. -/

/-- `np.max` over a list (junk value `0` on the empty list, which numpy
would reject; every use below is guarded by nonemptiness). -/
noncomputable def maxListR : List ℝ → ℝ
  | [] => 0
  | x :: xs => xs.foldl max x

/-- `librosa.amplitude_to_db(S, ref)` with its default `amin = 1e-5` and
`top_db = 80`: `10·log10(max(amin², S²)) − 10·log10(max(amin², ref²))`,
then floored at `max(log_spec) − top_db`. -/
noncomputable def amplitudeToDb (S : List ℝ) (ref : ℝ) : List ℝ :=
  let aminPow : ℝ := (1e-5 : ℝ) ^ 2
  let refPow : ℝ := ref ^ 2
  let logSpec := S.map (fun x =>
    10 * Real.logb 10 (max aminPow (x ^ 2)) - 10 * Real.logb 10 (max aminPow refPow))
  logSpec.map (fun v => max v (maxListR logSpec - 80))

/-- Decibel curve values from raw RMS frames (analysis.py lines 228-230):
floor at `1e-12`, reference the loudest frame (falling back to `1e-12` if
the maximum were non-positive), convert to dB. -/
noncomputable def loudnessDbOf (rms : List ℝ) : List ℝ :=
  let rms' := rms.map (fun x => max x (1e-12 : ℝ))
  let ref := if 0 < maxListR rms' then maxListR rms' else (1e-12 : ℝ)
  amplitudeToDb rms' ref

/-- `librosa.frames_to_time(np.arange(n), sr, hop)` (excluded collaborator,
documented formula `frame · hop / sr`). -/
def framesToTime (n : ℕ) (sr : ℚ) (hop : ℕ) : List ℚ :=
  (List.range n).map (fun i => ((i * hop : ℕ) : ℚ) / sr)

/-- `np.percentile(l, q)` with the default linear interpolation method
(sorted order, fractional index `q/100·(n−1)`).  Only determinism matters
to the claims below; the index clamp mirrors numpy's boundary handling. -/
noncomputable def percentileR (l : List ℝ) (q : ℚ) : ℝ :=
  let s := List.insertionSort (· ≤ ·) l
  let pos : ℚ := q / 100 * ((l.length : ℚ) - 1)
  let i : ℕ := (⌊pos⌋).toNat
  let frac : ℚ := pos - ⌊pos⌋
  s.getD i 0 + (frac : ℝ) * (s.getD (min (i + 1) (l.length - 1)) 0 - s.getD i 0)

/-- Output of `trim_silence` (analysis.py lines 11-22): the trimmed sample
vector and the start/end sample offsets, produced by the external
collaborator `librosa.effects.trim`. -/
structure TrimOut where
  ytrim : List ℚ
  startSamp : ℕ
  endSamp : ℕ

/-- The `analyze_loudness` result dictionary (analysis.py lines 213-243). -/
structure LoudnessResult where
  duration_sec_raw : ℚ
  duration_sec_trimmed : ℚ
  trim_start_sec : ℚ
  trim_end_sec : ℚ
  trim_top_db : ℚ
  loudness_curve : List (ℚ × ℝ)
  mean_db : Option ℝ
  dynamic_range_db : Option ℝ

/-- `analyze_loudness(audio_path)` (analysis.py lines 202-243) at the
signal level: the decoded samples `y`, sample rate `sr`, the trimmer's
output `tr`, and the RMS extractor oracle `rmsO` are the external inputs.
Python's `if sr:` duration guards are `sr ≠ 0` tests; `librosa.load` never
returns a `None` sample rate, so that disjunct of line 213 is dropped. -/
noncomputable def analyzeLoudnessSig (y : List ℚ) (sr : ℚ) (tr : TrimOut)
    (rmsO : List ℚ → List ℝ) : LoudnessResult :=
  let duration_sec_raw := if sr ≠ 0 then (y.length : ℚ) / sr else 0
  let duration_sec_trimmed := if sr ≠ 0 then (tr.ytrim.length : ℚ) / sr else 0
  let start_sec := if sr ≠ 0 then (tr.startSamp : ℚ) / sr else 0
  let end_sec := if sr ≠ 0 then (tr.endSamp : ℚ) / sr else 0
  if tr.ytrim.length < 2048 then
    { duration_sec_raw := duration_sec_raw
      duration_sec_trimmed := duration_sec_trimmed
      trim_start_sec := start_sec
      trim_end_sec := end_sec
      trim_top_db := 35
      loudness_curve := []
      mean_db := none
      dynamic_range_db := none }
  else
    let rms := rmsO tr.ytrim
    let dbs := loudnessDbOf rms
    let times := framesToTime rms.length sr 512
    { duration_sec_raw := duration_sec_raw
      duration_sec_trimmed := duration_sec_trimmed
      trim_start_sec := start_sec
      trim_end_sec := end_sec
      trim_top_db := 35
      loudness_curve := times.zip dbs
      mean_db := some (dbs.sum / dbs.length)
      dynamic_range_db := some (percentileR dbs 95 - percentileR dbs 5) }

/-- The `analyze_tempo` result dictionary (analysis.py lines 184-196). -/
structure TempoResult where
  duration_sec_raw : ℚ
  duration_sec_trimmed : ℚ
  trim_start_sec : ℚ
  trim_end_sec : ℚ
  trim_top_db : ℚ
  tempo_curve : List TempoPoint
  summary : TempoSummary
  tempo_interpretations : TempoInterp
  events : List TempoEvent

/-- `analyze_tempo(audio_path)` (analysis.py lines 65-196) at the signal
level.  `bt` is the composed external beat-tracking collaborator
(`onset_strength` → `beat_track` → `frames_to_time`), returning the
aggregate tempo estimate and the beat timestamps for the signal it is fed.
Line 76-77's fallback (`if sr is None or len(y_trim) < 2048: y_trim = y`)
selects which signal the tracker sees. -/
noncomputable def analyzeTempoSig (y : List ℚ) (sr : ℚ) (tr : TrimOut)
    (bt : List ℚ → ℚ × List ℚ) : TempoResult :=
  let duration_sec_raw := if sr ≠ 0 then (y.length : ℚ) / sr else 0
  let duration_sec_trimmed := if sr ≠ 0 then (tr.ytrim.length : ℚ) / sr else 0
  let start_sec := if sr ≠ 0 then (tr.startSamp : ℚ) / sr else 0
  let end_sec := if sr ≠ 0 then (tr.endSamp : ℚ) / sr else 0
  let ysel := if tr.ytrim.length < 2048 then y else tr.ytrim
  let eb := bt ysel
  let core := tempoFromBeats eb.1 eb.2
  { duration_sec_raw := duration_sec_raw
    duration_sec_trimmed := duration_sec_trimmed
    trim_start_sec := start_sec
    trim_end_sec := end_sec
    trim_top_db := 35
    tempo_curve := core.tempo_curve
    summary := core.summary
    tempo_interpretations := core.tempo_interpretations
    events := core.events }

/-! ## Insight generation (`build_insights`, analysis.py lines 363-510)

`build_insights` reads only scalar summary fields from the two analysis
dictionaries and the comparison dictionary; `_safe_float` turns missing or
non-finite values into `None`, modelled here by `Option ℚ` inputs (ℚ has no
NaN, so `_safe_float` is the identity on present values). -/

/-- An insight card (title, severity ∈ good/warn/bad, detail, suggestion). -/
structure InsightCard where
  title : String
  severity : String
  detail : String
  suggestion : String
deriving Repr, DecidableEq

/-- The summary scalars `build_insights` reads from one recording's
analysis result. -/
structure SummaryIn where
  recommended_bpm : Option ℚ
  tempo_stability_cv : Option ℚ
  mean_db : Option ℚ
  dynamic_range_db : Option ℚ
deriving Repr, DecidableEq

/-- The summary scalars `build_insights` reads from the comparison result. -/
structure CompIn where
  recommended_bpm_diff : Option ℚ
  mean_abs_bpm_diff : Option ℚ
  mean_abs_db_diff : Option ℚ
deriving Repr, DecidableEq

/-- Fixed-point decimal rendering standing in for CPython's
`format(x, '.df')` (the source formats IEEE doubles, which round ties to
even; the claims below only need determinism, not tie behaviour). -/
def fmtFixed (d : ℕ) (q : ℚ) : String :=
  let scaled : ℤ := ⌊q * (10 ^ d : ℚ) + 1 / 2⌋
  let sign := if scaled < 0 then "-" else ""
  let n := scaled.natAbs
  let ip := n / 10 ^ d
  let fp := n % 10 ^ d
  if d = 0 then sign ++ toString ip
  else
    let fs := toString fp
    sign ++ toString ip ++ "." ++ String.mk (List.replicate (d - fs.length) '0') ++ fs

/-- `build_insights(student, reference, comp)` (analysis.py lines 363-510):
six independent severity-graded cards plus the final sanity check, each
emitted only when its inputs are present.  `_r_consistency` mirrors the
source's line 379, which reads the reference consistency but never uses
it. -/
def buildInsights (student reference : SummaryIn) (comp : CompIn) : List InsightCard :=
  let s_rec := student.recommended_bpm
  let r_rec := reference.recommended_bpm
  let rec_diff := comp.recommended_bpm_diff
  let mean_abs_bpm := comp.mean_abs_bpm_diff
  let mean_abs_db := comp.mean_abs_db_diff
  let s_consistency := student.tempo_stability_cv
  let _r_consistency := reference.tempo_stability_cv
  let s_mean_db := student.mean_db
  let r_mean_db := reference.mean_db
  let s_dr := student.dynamic_range_db
  let r_dr := reference.dynamic_range_db
  (match s_rec, r_rec with
   | some sv, some rv =>
     let faster := if rv < sv then "faster" else "slower"
     let pct := |sv - rv| / max rv (1e-9 : ℚ) * 100
     let sev := if pct ≤ 5 then "good" else if pct ≤ 12 then "warn" else "bad"
     [{ title := "Overall tempo vs reference"
        severity := sev
        detail := "Student recommended tempo is " ++ fmtFixed 1 sv
          ++ " BPM vs reference " ++ fmtFixed 1 rv ++ " BPM (" ++ faster
          ++ " by " ++ fmtFixed 1 |sv - rv| ++ " BPM, ~" ++ fmtFixed 0 pct ++ "%)."
        suggestion := "If you want to match the reference feel, aim to close the BPM gap gradually (e.g., +2 BPM per run-through) rather than jumping straight to target." }]
   | _, _ => []) ++
  (match s_consistency with
   | some c =>
     let sevmsg :=
       if c ≤ 0.06 then ("good", "Tempo is quite steady overall.")
       else if c ≤ 0.10 then
         ("warn", "Tempo varies moderately (could be rubato or mild instability).")
       else
         ("bad", "Tempo varies a lot (often reads as instability more than intentional rubato).")
     [{ title := "Tempo consistency"
        severity := sevmsg.1
        detail := sevmsg.2 ++ " Tempo consistency score ≈ " ++ fmtFixed 3 c
          ++ " (lower = steadier)."
        suggestion := "Try recording with a soft metronome on big beats only, then re-record without it and see if the consistency score improves." }]
   | none => []) ++
  (match mean_abs_bpm with
   | some m =>
     let sev := if m ≤ 4 then "good" else if m ≤ 10 then "warn" else "bad"
     [{ title := "Tempo tracking vs reference (aligned)"
        severity := sev
        detail := "Average aligned tempo difference |ΔBPM| ≈ " ++ fmtFixed 1 m ++ "."
        suggestion := "If this feels too high, focus on matching the reference’s phrase pacing: compare 10–15s segments rather than the whole piece." }]
   | none => []) ++
  (match s_mean_db, r_mean_db with
   | some sm, some rm =>
     let diff := sm - rm
     let sevmsg :=
       if |diff| ≤ 2 then ("good", "Overall loudness level is close to the reference.")
       else if |diff| ≤ 5 then
         ("warn", "Overall loudness level differs noticeably from the reference.")
       else ("bad", "Overall loudness level differs a lot from the reference.")
     let louder := if 0 < diff then "louder" else "softer"
     [{ title := "Overall loudness vs reference"
        severity := sevmsg.1
        detail := sevmsg.2 ++ " Student is " ++ louder ++ " by ~" ++ fmtFixed 1 |diff|
          ++ " dB (relative scale)."
        suggestion := "If you’re softer, experiment with closer mic placement and more intentional voicing before just ‘playing harder’." }]
   | _, _ => []) ++
  (match s_dr, r_dr with
   | some sd, some rd =>
     let diff := sd - rd
     let sev := if |diff| ≤ 2 then "good" else if |diff| ≤ 6 then "warn" else "bad"
     let more := if 0 < diff then "more" else "less"
     [{ title := "Dynamic range"
        severity := sev
        detail := "Student dynamic range ≈ " ++ fmtFixed 1 sd ++ " dB vs reference "
          ++ fmtFixed 1 rd ++ " dB (student has " ++ more ++ " range by ~"
          ++ fmtFixed 1 |diff| ++ " dB)."
        suggestion := "If range is low: exaggerate pp vs mf contrast in practice. If range is high: check if peaks are unintended accents." }]
   | _, _ => []) ++
  (match mean_abs_db with
   | some m =>
     let sev := if m ≤ (1.5 : ℚ) then "good" else if m ≤ (3.5 : ℚ) then "warn" else "bad"
     [{ title := "Dynamics tracking vs reference (aligned)"
        severity := sev
        detail := "Average aligned loudness difference |ΔdB| ≈ " ++ fmtFixed 2 m ++ "."
        suggestion := "If this is high, match the reference’s ‘shape’ more than absolute level: crescendos/decrescendos should line up in time." }]
   | none => []) ++
  (match rec_diff, s_rec, r_rec with
   | some d, some sv, some rv =>
     if (1e-3 : ℚ) < |sv - rv - d| then
       [{ title := "Sanity check"
          severity := "warn"
          detail := "Recommended BPM diff in comp doesn’t exactly match student/reference values (minor inconsistency)."
          suggestion := "Not critical, but worth checking keys if you refactor tempo_interpretations." }]
     else []
   | _, _, _ => [])

/-! # Theorems -/

/-! ## Helper lemmas about `tempoFromBeats` -/

theorem tempoFromBeats_interp (est : ℚ) (bt : List ℚ) (h : ¬ bt.length < 3) :
    (tempoFromBeats est bt).tempo_interpretations =
      tempoInterpretationsOf (meanQ (bpmInstOf bt)) := by
  unfold tempoFromBeats
  rw [if_neg h]

theorem tempoFromBeats_events (est : ℚ) (bt : List ℚ) (h : ¬ bt.length < 3) :
    (tempoFromBeats est bt).events = eventsOf (bpmInstOf bt) (tMidOf bt) := by
  unfold tempoFromBeats
  rw [if_neg h]

/-- C1: Octave disambiguation in `analyze_tempo` is an ordered priority
list: in every non-degenerate tempo analysis (at least 3 beats), with
`as_detected` equal to the mean of the instantaneous BPM series, the
recommendation is half-time when `90 ≤ as_detected ≤ 180` and
`40 ≤ as_detected/2 ≤ 110`; else as-detected when `40 ≤ as_detected ≤ 120`;
else double-time when `40 ≤ as_detected·2 ≤ 120`; else as-detected — the
first matching rule wins, and `recommended_bpm` equals exactly the chosen
candidate's value. -/
theorem octave_disambiguation_priority (est : ℚ) (bt : List ℚ)
    (h : 3 ≤ bt.length) :
    ((tempoFromBeats est bt).tempo_interpretations.recommended_label,
     (tempoFromBeats est bt).tempo_interpretations.recommended_bpm) =
    (if 90 ≤ meanQ (bpmInstOf bt) ∧ meanQ (bpmInstOf bt) ≤ 180 ∧
        40 ≤ meanQ (bpmInstOf bt) / 2 ∧ meanQ (bpmInstOf bt) / 2 ≤ 110 then
      ("half_time_bpm", meanQ (bpmInstOf bt) / 2)
    else if 40 ≤ meanQ (bpmInstOf bt) ∧ meanQ (bpmInstOf bt) ≤ 120 then
      ("as_detected_bpm", meanQ (bpmInstOf bt))
    else if 40 ≤ meanQ (bpmInstOf bt) * 2 ∧ meanQ (bpmInstOf bt) * 2 ≤ 120 then
      ("double_time_bpm", meanQ (bpmInstOf bt) * 2)
    else ("as_detected_bpm", meanQ (bpmInstOf bt))) := by
  rw [tempoFromBeats_interp est bt (by omega)]
  simp only [tempoInterpretationsOf]
  split_ifs <;> rfl

/-- Witness for C1: three beats at 0.5 s spacing (mean 120 BPM). -/
theorem octave_disambiguation_priority_witness :
    3 ≤ ([0, 1/2, 1] : List ℚ).length ∧
    ((tempoFromBeats 100 [0, 1/2, 1]).tempo_interpretations.recommended_label,
     (tempoFromBeats 100 [0, 1/2, 1]).tempo_interpretations.recommended_bpm) =
    (if 90 ≤ meanQ (bpmInstOf [0, 1/2, 1]) ∧ meanQ (bpmInstOf [0, 1/2, 1]) ≤ 180 ∧
        40 ≤ meanQ (bpmInstOf [0, 1/2, 1]) / 2 ∧ meanQ (bpmInstOf [0, 1/2, 1]) / 2 ≤ 110 then
      ("half_time_bpm", meanQ (bpmInstOf [0, 1/2, 1]) / 2)
    else if 40 ≤ meanQ (bpmInstOf [0, 1/2, 1]) ∧ meanQ (bpmInstOf [0, 1/2, 1]) ≤ 120 then
      ("as_detected_bpm", meanQ (bpmInstOf [0, 1/2, 1]))
    else if 40 ≤ meanQ (bpmInstOf [0, 1/2, 1]) * 2 ∧ meanQ (bpmInstOf [0, 1/2, 1]) * 2 ≤ 120 then
      ("double_time_bpm", meanQ (bpmInstOf [0, 1/2, 1]) * 2)
    else ("as_detected_bpm", meanQ (bpmInstOf [0, 1/2, 1]))) :=
  ⟨by norm_num, octave_disambiguation_priority 100 [0, 1/2, 1] (by norm_num)⟩

/-- C2 counterexample: at beat timestamps `[0, 0.5, 1, 1.5, 2]` the claim's
`recommended_label = "as_detected_bpm"` is false — the detected mean 120
falls in `[90, 180]` with half-time 60 in `[40, 110]`, so rule 1 (half-time)
fires before rule 2 can. -/
theorem tempo_scenario_constant_120_counterexample :
    (tempoFromBeats 120 [0, 1/2, 1, 3/2, 2]).tempo_interpretations.recommended_label
      ≠ "as_detected_bpm" := by
  have hb : bpmInstOf [0, 1/2, 1, 3/2, 2] = [120, 120, 120, 120] := by
    norm_num [bpmInstOf, diffsOf, clipQ]
  have hm : meanQ ([120, 120, 120, 120] : List ℚ) = 120 := by norm_num [meanQ]
  rw [tempoFromBeats_interp 120 _ (by norm_num), hb, hm]
  simp only [tempoInterpretationsOf]
  rw [if_pos (by norm_num : (90:ℚ) ≤ 120 ∧ (120:ℚ) ≤ 180 ∧ (40:ℚ) ≤ 120 / 2 ∧ (120:ℚ) / 2 ≤ 110)]
  decide

/-- C2 (amended): for beat timestamps `[0, 0.5, 1, 1.5, 2]` the
instantaneous BPM series is constant at 120 and `tempo_stability_cv = 0`,
but the recommendation is half-time: `recommended_label = "half_time_bpm"`
with `recommended_bpm = 60` (rule 1 of the priority list fires first). -/
theorem tempo_scenario_constant_120_amended :
    (tempoFromBeats 120 [0, 1/2, 1, 3/2, 2]).tempo_curve.map TempoPoint.bpm
        = [120, 120, 120, 120] ∧
    (tempoFromBeats 120 [0, 1/2, 1, 3/2, 2]).summary.tempo_stability_cv = some 0 ∧
    (tempoFromBeats 120 [0, 1/2, 1, 3/2, 2]).tempo_interpretations.recommended_label
        = "half_time_bpm" ∧
    (tempoFromBeats 120 [0, 1/2, 1, 3/2, 2]).tempo_interpretations.recommended_bpm = 60 := by
  have hb : bpmInstOf [0, 1/2, 1, 3/2, 2] = [120, 120, 120, 120] := by
    norm_num [bpmInstOf, diffsOf, clipQ]
  have ht : tMidOf [0, 1/2, 1, 3/2, 2] = [1/4, 3/4, 5/4, 7/4] := by
    norm_num [tMidOf]
  have hm : meanQ ([120, 120, 120, 120] : List ℚ) = 120 := by norm_num [meanQ]
  have hv : varQ ([120, 120, 120, 120] : List ℚ) = 0 := by norm_num [varQ, meanQ]
  unfold tempoFromBeats
  rw [if_neg (by norm_num : ¬ ([0, 1/2, 1, 3/2, 2] : List ℚ).length < 3)]
  simp only [hb, ht, hm, hv]
  norm_num [tempoInterpretationsOf, List.range_succ]

/-- C4 counterexample: in the degenerate branch the `reason` string is
"Not enough beats detected to infer a stable curve.", not the claim's
"insufficient beats". -/
theorem degenerate_reason_counterexample :
    (tempoFromBeats 100 ([] : List ℚ)).tempo_interpretations.reason
      ≠ "insufficient beats" := by
  unfold tempoFromBeats
  rw [if_pos (by norm_num : ([] : List ℚ).length < 3)]
  decide

/-- C4 (amended): with fewer than 3 beats, `analyze_tempo` returns the
degenerate result: empty curve, `avg_bpm` equal to the aggregate tempo
estimate, `bpm_variance = 0`, `tempo_stability_cv = none`, an as-detected
interpretation whose reason reads "Not enough beats detected to infer a
stable curve.", and no events. -/
theorem degenerate_result_fields (est : ℚ) (bt : List ℚ) (h : bt.length < 3) :
    tempoFromBeats est bt =
      { tempo_curve := []
        summary := { avg_bpm := est, bpm_variance := 0, tempo_stability_cv := none }
        tempo_interpretations :=
          { as_detected_bpm := est
            half_time_bpm := est / 2
            double_time_bpm := est * 2
            recommended_bpm := est
            recommended_label := "as_detected_bpm"
            reason := "Not enough beats detected to infer a stable curve." }
        events := [] } := by
  unfold tempoFromBeats
  rw [if_pos h]

/-- Witness for C4 at a single beat. -/
theorem degenerate_result_fields_witness :
    ([0] : List ℚ).length < 3 ∧
    tempoFromBeats 77 [0] =
      { tempo_curve := []
        summary := { avg_bpm := 77, bpm_variance := 0, tempo_stability_cv := none }
        tempo_interpretations :=
          { as_detected_bpm := 77
            half_time_bpm := 77 / 2
            double_time_bpm := 77 * 2
            recommended_bpm := 77
            recommended_label := "as_detected_bpm"
            reason := "Not enough beats detected to infer a stable curve." }
        events := [] } :=
  ⟨by norm_num, degenerate_result_fields 77 [0] (by norm_num)⟩

/-! ## Instability events: the loop computes exactly the maximal runs -/

theorem specEvents_step (l : List (ℚ × ℚ)) :
    specEvents l = closeRun (l.takeWhile badB) ++ specEvents (l.dropWhile badB) := by
  cases l with
  | nil => simp [specEvents, closeRun]
  | cons p rest =>
    by_cases hb : badB p
    · simp only [specEvents, hb, if_true, List.takeWhile_cons, List.dropWhile_cons]
    · simp only [specEvents, hb, if_false, List.takeWhile_cons, List.dropWhile_cons,
        Bool.false_eq_true, closeRun, List.length_nil, List.nil_append]
      norm_num

theorem eventsAux_spec (l : List (ℚ × ℚ)) : ∀ run,
    eventsAux run l = closeRun (run ++ l.takeWhile badB) ++ specEvents (l.dropWhile badB) := by
  induction l with
  | nil => intro run; simp [eventsAux, specEvents]
  | cons p rest ih =>
    intro run
    by_cases hb : badB p
    · simp only [eventsAux, hb, if_true, List.takeWhile_cons, List.dropWhile_cons]
      rw [ih (run ++ [p])]
      simp [List.append_assoc]
    · simp only [eventsAux, hb, if_false, Bool.false_eq_true, List.takeWhile_cons,
        List.dropWhile_cons]
      rw [ih [], List.nil_append, ← specEvents_step rest]
      simp only [specEvents, hb, Bool.false_eq_true, if_false, List.append_nil]

theorem codeEvents_eq_specEvents (l : List (ℚ × ℚ)) : codeEvents l = specEvents l := by
  rw [codeEvents, eventsAux_spec l [], List.nil_append, ← specEvents_step]

theorem length_bpmInstOf (bt : List ℚ) : (bpmInstOf bt).length = bt.length - 1 := by
  simp only [bpmInstOf, diffsOf, List.length_map, List.length_zip, List.length_tail]
  omega

theorem forty_le_of_mem_bpmInst (bt : List ℚ) {x : ℚ} (hx : x ∈ bpmInstOf bt) :
    40 ≤ x := by
  simp only [bpmInstOf, List.mem_map] at hx
  obtain ⟨d, _, rfl⟩ := hx
  unfold clipQ
  exact le_min (le_max_right _ _) (by norm_num)

theorem le_sum_of_forall_le (c : ℚ) : ∀ (l : List ℚ), (∀ x ∈ l, c ≤ x) →
    c * l.length ≤ l.sum := by
  intro l; induction l with
  | nil => simp
  | cons a t ih =>
    intro h
    have h1 := ih (fun x hx => h x (List.mem_cons_of_mem a hx))
    have h2 := h a (List.mem_cons_self a t)
    simp only [List.length_cons, List.sum_cons]
    push_cast
    nlinarith [h1, h2]

theorem meanQ_pos_of_forall_forty (l : List ℚ) (hne : l ≠ [])
    (h : ∀ x ∈ l, (40:ℚ) ≤ x) : 0 < meanQ l := by
  have hlen : 0 < (l.length : ℚ) := by exact_mod_cast List.length_pos.mpr hne
  have hsum : (40:ℚ) * l.length ≤ l.sum := le_sum_of_forall_le 40 l h
  have hs : 0 < l.sum := lt_of_lt_of_le (mul_pos (by norm_num) hlen) hsum
  exact div_pos hs hlen

/-- C3 (amended): for every instantaneous-BPM series with at least 3 points
(at least 4 beats — the source guards event detection with
`len(bpm_inst) >= 3`), the emitted events are exactly the spec's
maximal-run extraction: every maximal contiguous run of points with
relative deviation `> 0.15` of length `≥ 2` yields exactly one
`tempo_instability` event spanning the run's first to last midpoint with
`severity = min(1, mean dev / 0.30)`, runs being closed at a good point or
inclusively at the end of the series. -/
theorem instability_events_are_maximal_runs (est : ℚ) (bt : List ℚ)
    (h : 4 ≤ bt.length) :
    (tempoFromBeats est bt).events =
      specEvents ((tMidOf bt).zip
        (devSeriesOf (bpmInstOf bt) (meanQ (bpmInstOf bt)))) := by
  rw [tempoFromBeats_events est bt (by omega)]
  have h3 : 3 ≤ (bpmInstOf bt).length := by rw [length_bpmInstOf]; omega
  have hne : bpmInstOf bt ≠ [] := by
    intro hnil
    rw [hnil] at h3
    simp at h3
  have hpos : 0 < meanQ (bpmInstOf bt) :=
    meanQ_pos_of_forall_forty _ hne (fun x hx => forty_le_of_mem_bpmInst bt hx)
  simp only [eventsOf]
  rw [if_pos ⟨h3, hpos⟩]
  exact codeEvents_eq_specEvents _

/-- Witness for C3 at four steady beats. -/
theorem instability_events_are_maximal_runs_witness :
    4 ≤ ([0, 1/2, 1, 3/2] : List ℚ).length ∧
    (tempoFromBeats 100 [0, 1/2, 1, 3/2]).events =
      specEvents ((tMidOf [0, 1/2, 1, 3/2]).zip
        (devSeriesOf (bpmInstOf [0, 1/2, 1, 3/2]) (meanQ (bpmInstOf [0, 1/2, 1, 3/2])))) :=
  ⟨by norm_num, instability_events_are_maximal_runs 100 _ (by norm_num)⟩

/-- C3 counterexample: with exactly 3 beats the instantaneous series has 2
points; taking both deviations above 0.15, the claim (which covers series
of ≥ 2 points) predicts one event, but the source's `len(bpm_inst) >= 3`
guard suppresses event detection entirely. -/
theorem instability_two_point_counterexample :
    (tempoFromBeats 100 [0, 3/2, 7/4]).events = [] ∧
    specEvents ((tMidOf [0, 3/2, 7/4]).zip
      (devSeriesOf (bpmInstOf [0, 3/2, 7/4]) (meanQ (bpmInstOf [0, 3/2, 7/4])))) ≠ [] := by
  have hb : bpmInstOf [0, 3/2, 7/4] = [40, 240] := by
    norm_num [bpmInstOf, diffsOf, clipQ]
  have ht : tMidOf [0, 3/2, 7/4] = [3/4, 13/8] := by norm_num [tMidOf]
  have hm : meanQ ([40, 240] : List ℚ) = 140 := by norm_num [meanQ]
  constructor
  · rw [tempoFromBeats_events 100 _ (by norm_num)]
    simp only [eventsOf, hb]
    rw [if_neg (by norm_num)]
  · rw [hb, ht, hm]
    norm_num [devSeriesOf, specEvents, closeRun, badB, meanQ, List.takeWhile, List.dropWhile]

/-! ## Comparison error paths and path reduction -/

/-- C5: whenever either loudness curve is empty, either trimmed duration is
non-positive, or fewer than 10 pairs survive the first-seen-wins reduction
of the (forward-ordered) warping path, `compare_recordings_dtw` returns the
structured error payload — in the embedding a total function returning
`CompareOut.err`, so no exception can escape. -/
theorem compare_insufficient_data_errors (s r : AnalysisIn) (wp : List (ℕ × ℕ))
    (h : s.loudness_curve = [] ∨ r.loudness_curve = [] ∨
      s.duration_sec_trimmed ≤ 0 ∨ r.duration_sec_trimmed ≤ 0 ∨
      (reducePairs wp.reverse).length < 10) :
    (compareRecordingsDtw s r wp).isErr = true := by
  simp only [compareRecordingsDtw]
  split_ifs with h1 h2 h3 h4 h5
  · rfl
  · rfl
  · rfl
  · rfl
  · rfl
  · rcases h with hc | hc | hc | hc | hc
    · exact absurd (Or.inl hc) h1
    · exact absurd (Or.inr hc) h1
    · exact absurd (Or.inl hc) h2
    · exact absurd (Or.inr hc) h2
    · exact absurd hc h4

/-- Witness for C5: an empty student loudness curve yields the error
payload. -/
theorem compare_insufficient_data_errors_witness :
    (([] : List (ℚ × ℚ)) = [] ∨ ([(0, 1)] : List (ℚ × ℚ)) = [] ∨
      (1 : ℚ) ≤ 0 ∨ (1 : ℚ) ≤ 0 ∨ (reducePairs ([] : List (ℕ × ℕ)).reverse).length < 10) ∧
    (compareRecordingsDtw
      { loudness_curve := [], duration_sec_trimmed := 1, tempo_curve := [],
        recommended_bpm := none, mean_db := none }
      { loudness_curve := [(0, 1)], duration_sec_trimmed := 1, tempo_curve := [],
        recommended_bpm := none, mean_db := none }
      []).isErr = true :=
  ⟨Or.inl rfl,
    compare_insufficient_data_errors _ _ [] (Or.inl rfl)⟩

theorem reducePairsAux_sublist (l : List (ℕ × ℕ)) : ∀ seen,
    List.Sublist (reducePairsAux seen l) l := by
  induction l with
  | nil => intro seen; simp [reducePairsAux]
  | cons p rest ih =>
    intro seen
    by_cases hp : p.1 ∈ seen
    · simp only [reducePairsAux, hp, if_true]
      exact (ih seen).cons p
    · simp only [reducePairsAux, hp, if_false]
      exact (ih (p.1 :: seen)).cons₂ p

theorem reducePairsAux_not_mem_seen (l : List (ℕ × ℕ)) : ∀ seen pr,
    pr ∈ reducePairsAux seen l → pr.1 ∉ seen := by
  induction l with
  | nil => intro seen pr hmem; simp [reducePairsAux] at hmem
  | cons p rest ih =>
    intro seen pr hmem
    by_cases hp : p.1 ∈ seen
    · rw [reducePairsAux, if_pos hp] at hmem
      exact ih seen pr hmem
    · rw [reducePairsAux, if_neg hp] at hmem
      rcases List.mem_cons.mp hmem with heq | hmem'
      · rw [heq]; exact hp
      · have := ih (p.1 :: seen) pr hmem'
        intro hs
        exact this (List.mem_cons_of_mem _ hs)

theorem reducePairsAux_nodup_fst (l : List (ℕ × ℕ)) : ∀ seen,
    ((reducePairsAux seen l).map Prod.fst).Nodup := by
  induction l with
  | nil => intro seen; simp [reducePairsAux]
  | cons p rest ih =>
    intro seen
    by_cases hp : p.1 ∈ seen
    · rw [reducePairsAux, if_pos hp]; exact ih seen
    · rw [reducePairsAux, if_neg hp]
      simp only [List.map_cons, List.nodup_cons]
      refine ⟨?_, ih (p.1 :: seen)⟩
      intro hmem
      obtain ⟨q, hq, hq1⟩ := List.mem_map.mp hmem
      have := reducePairsAux_not_mem_seen rest (p.1 :: seen) q hq
      exact this (by rw [hq1]; exact List.mem_cons_self _ _)

theorem reducePairsAux_find (l : List (ℕ × ℕ)) : ∀ seen pr,
    pr ∈ reducePairsAux seen l → l.find? (fun q => q.1 == pr.1) = some pr := by
  induction l with
  | nil => intro seen pr hmem; simp [reducePairsAux] at hmem
  | cons p rest ih =>
    intro seen pr hmem
    by_cases hp : p.1 ∈ seen
    · rw [reducePairsAux, if_pos hp] at hmem
      have hne : pr.1 ∉ seen := reducePairsAux_not_mem_seen rest seen pr hmem
      have hne2 : ¬ (p.1 == pr.1) = true := by
        simp only [beq_iff_eq]
        intro he
        exact hne (he ▸ hp)
      rw [@List.find?_cons_of_neg _ (fun q : ℕ × ℕ => q.1 == pr.1) p rest hne2]
      exact ih seen pr hmem
    · rw [reducePairsAux, if_neg hp] at hmem
      rcases List.mem_cons.mp hmem with heq | hmem'
      · rw [heq]
        exact List.find?_cons_of_pos _ (by simp)
      · have hne : pr.1 ∉ p.1 :: seen := reducePairsAux_not_mem_seen rest _ pr hmem'
        have hne2 : ¬ (p.1 == pr.1) = true := by
          simp only [beq_iff_eq]
          intro he
          exact hne (by rw [← he]; exact List.mem_cons_self _ _)
        rw [@List.find?_cons_of_neg _ (fun q : ℕ × ℕ => q.1 == pr.1) p rest hne2]
        exact ih _ pr hmem'

theorem reducePairsAux_complete (l : List (ℕ × ℕ)) : ∀ seen i,
    (∃ j, (i, j) ∈ l) → i ∈ seen ∨ ∃ j, (i, j) ∈ reducePairsAux seen l := by
  induction l with
  | nil => intro seen i hex; obtain ⟨j, hj⟩ := hex; simp at hj
  | cons p rest ih =>
    intro seen i hex
    obtain ⟨j, hj⟩ := hex
    rcases List.mem_cons.mp hj with heq | hmem
    · by_cases hp : p.1 ∈ seen
      · left; rw [← heq] at hp; exact hp
      · right
        refine ⟨j, ?_⟩
        rw [reducePairsAux, if_neg hp, heq]
        exact List.mem_cons_self _ _
    · by_cases hp : p.1 ∈ seen
      · rcases ih seen i ⟨j, hmem⟩ with hs | hr
        · exact Or.inl hs
        · right; rw [reducePairsAux, if_pos hp]; exact hr
      · rcases ih (p.1 :: seen) i ⟨j, hmem⟩ with hs | hr
        · rcases List.mem_cons.mp hs with heq2 | hs2
          · right
            refine ⟨p.2, ?_⟩
            rw [reducePairsAux, if_neg hp, heq2]
            simp
          · exact Or.inl hs2
        · right
          obtain ⟨j', hj'⟩ := hr
          refine ⟨j', ?_⟩
          rw [reducePairsAux, if_neg hp]
          exact List.mem_cons_of_mem _ hj'

/-- C6: on a warping path monotonically non-decreasing in both coordinates,
the first-seen-wins reduction keeps a subsequence of the path (no
reordering) in which each kept pair is the *first* pair of the path with
its student index, every student index of the path is kept, the student
indices are strictly increasing, and each reference index is `≥` the
previous one. -/
theorem path_reduction_monotone (wp : List (ℕ × ℕ))
    (h : List.Chain' (fun p q => p.1 ≤ q.1 ∧ p.2 ≤ q.2) wp) :
    List.Sublist (reducePairs wp) wp ∧
    (∀ pr ∈ reducePairs wp, wp.find? (fun q => q.1 == pr.1) = some pr) ∧
    (∀ i, (∃ j, (i, j) ∈ wp) → ∃ j, (i, j) ∈ reducePairs wp) ∧
    List.Chain' (fun p q => p.1 < q.1 ∧ p.2 ≤ q.2) (reducePairs wp) := by
  refine ⟨reducePairsAux_sublist wp [],
    fun pr hpr => reducePairsAux_find wp [] pr hpr,
    fun i hi => ?_, ?_⟩
  · rcases reducePairsAux_complete wp [] i hi with hs | hr
    · simp at hs
    · exact hr
  · haveI : IsTrans (ℕ × ℕ) (fun p q : ℕ × ℕ => p.1 ≤ q.1 ∧ p.2 ≤ q.2) :=
      ⟨fun a b c hab hbc => ⟨le_trans hab.1 hbc.1, le_trans hab.2 hbc.2⟩⟩
    have hpw : List.Pairwise (fun p q : ℕ × ℕ => p.1 ≤ q.1 ∧ p.2 ≤ q.2) wp :=
      List.chain'_iff_pairwise.mp h
    have hred : List.Pairwise (fun p q : ℕ × ℕ => p.1 ≤ q.1 ∧ p.2 ≤ q.2) (reducePairs wp) :=
      List.Pairwise.sublist (reducePairsAux_sublist wp []) hpw
    have hnd : ((reducePairs wp).map Prod.fst).Nodup := reducePairsAux_nodup_fst wp []
    have hne : List.Pairwise (fun p q : ℕ × ℕ => p.1 ≠ q.1) (reducePairs wp) :=
      List.pairwise_map.mp hnd
    have hlt : List.Pairwise (fun p q : ℕ × ℕ => p.1 < q.1 ∧ p.2 ≤ q.2) (reducePairs wp) :=
      (hred.and hne).imp (fun hab => ⟨lt_of_le_of_ne hab.1.1 hab.2, hab.1.2⟩)
    exact hlt.chain'

/-- Witness for C6 on a small monotone path. -/
theorem path_reduction_monotone_witness :
    List.Chain' (fun p q => p.1 ≤ q.1 ∧ p.2 ≤ q.2)
      ([(0, 0), (1, 0), (1, 1), (2, 1)] : List (ℕ × ℕ)) ∧
    (List.Sublist (reducePairs [(0, 0), (1, 0), (1, 1), (2, 1)]) [(0, 0), (1, 0), (1, 1), (2, 1)] ∧
     (∀ pr ∈ reducePairs [(0, 0), (1, 0), (1, 1), (2, 1)],
       ([(0, 0), (1, 0), (1, 1), (2, 1)] : List (ℕ × ℕ)).find? (fun q => q.1 == pr.1) = some pr) ∧
     (∀ i, (∃ j, (i, j) ∈ ([(0, 0), (1, 0), (1, 1), (2, 1)] : List (ℕ × ℕ))) →
       ∃ j, (i, j) ∈ reducePairs [(0, 0), (1, 0), (1, 1), (2, 1)]) ∧
     List.Chain' (fun p q => p.1 < q.1 ∧ p.2 ≤ q.2)
       (reducePairs [(0, 0), (1, 0), (1, 1), (2, 1)])) :=
  ⟨by simp [List.chain'_cons], path_reduction_monotone [(0, 0), (1, 0), (1, 1), (2, 1)]
    (by simp [List.chain'_cons])⟩

/-! ## Resampling: sortedness, node interpolation, clamping -/

theorem sortByT_sorted (pts : List (ℚ × ℚ)) :
    List.Sorted (fun p q : ℚ × ℚ => p.1 ≤ q.1) (sortByT pts) := by
  haveI : IsTotal (ℚ × ℚ) (fun p q : ℚ × ℚ => p.1 ≤ q.1) := ⟨fun a b => le_total a.1 b.1⟩
  haveI : IsTrans (ℚ × ℚ) (fun p q : ℚ × ℚ => p.1 ≤ q.1) :=
    ⟨fun a b c hab hbc => le_trans hab hbc⟩
  exact List.sorted_insertionSort _ pts

theorem sortByT_perm (pts : List (ℚ × ℚ)) : List.Perm (sortByT pts) pts :=
  List.perm_insertionSort _ pts

theorem sortByT_chain_lt (pts : List (ℚ × ℚ)) (hnd : (pts.map Prod.fst).Nodup) :
    List.Chain' (fun p q : ℚ × ℚ => p.1 < q.1) (sortByT pts) := by
  have hnd' : ((sortByT pts).map Prod.fst).Nodup :=
    (((sortByT_perm pts).map Prod.fst).nodup_iff).mpr hnd
  have hsorted : List.Pairwise (fun p q : ℚ × ℚ => p.1 ≤ q.1) (sortByT pts) :=
    sortByT_sorted pts
  have hne : List.Pairwise (fun p q : ℚ × ℚ => p.1 ≠ q.1) (sortByT pts) :=
    List.pairwise_map.mp hnd'
  exact ((hsorted.and hne).imp (fun hab => lt_of_le_of_ne hab.1 hab.2)).chain'

theorem chain'_lt_head_lt (p : ℚ × ℚ) (l : List (ℚ × ℚ))
    (h : List.Chain' (fun p q : ℚ × ℚ => p.1 < q.1) (p :: l)) :
    ∀ q ∈ l, p.1 < q.1 := by
  induction l generalizing p with
  | nil => intro q hq; simp at hq
  | cons r rest ih =>
    intro q hq
    have hpr : p.1 < r.1 := (List.chain'_cons.mp h).1
    rcases List.mem_cons.mp hq with heq | h2
    · exact heq ▸ hpr
    · exact lt_trans hpr (ih r (List.chain'_cons.mp h).2 q h2)

theorem interpQ_mem (s : List (ℚ × ℚ)) :
    List.Chain' (fun p q : ℚ × ℚ => p.1 < q.1) s →
    ∀ a b : ℚ, (a, b) ∈ s → interpQ a s = b := by
  induction s with
  | nil => intro _ a b hmem; simp at hmem
  | cons p rest ih =>
    intro hs a b hmem
    obtain ⟨t0, y0⟩ := p
    cases rest with
    | nil =>
      rcases List.mem_cons.mp hmem with heq | h'
      · simp only [Prod.mk.injEq] at heq
        obtain ⟨rfl, rfl⟩ := heq
        simp [interpQ]
      · simp at h'
    | cons q rest' =>
      obtain ⟨t1, y1⟩ := q
      have h01 : t0 < t1 := (List.chain'_cons.mp hs).1
      have hs' : List.Chain' (fun p q : ℚ × ℚ => p.1 < q.1) ((t1, y1) :: rest') :=
        (List.chain'_cons.mp hs).2
      rcases List.mem_cons.mp hmem with heq | h'
      · simp only [Prod.mk.injEq] at heq
        obtain ⟨rfl, rfl⟩ := heq
        simp [interpQ]
      · have ht1a : t1 ≤ a := by
          rcases List.mem_cons.mp h' with heq2 | h2
          · simp only [Prod.mk.injEq] at heq2
            exact le_of_eq heq2.1.symm
          · exact le_of_lt (chain'_lt_head_lt (t1, y1) rest' hs' (a, b) h2)
        have hnat0 : ¬ a ≤ t0 := not_le.mpr (lt_of_lt_of_le h01 ht1a)
        by_cases hat1 : a ≤ t1
        · have hae : a = t1 := le_antisymm hat1 ht1a
          have hb : b = y1 := by
            rcases List.mem_cons.mp h' with heq2 | h2
            · simp only [Prod.mk.injEq] at heq2
              exact heq2.2
            · exfalso
              have hgt := chain'_lt_head_lt (t1, y1) rest' hs' (a, b) h2
              exact lt_irrefl _ (hae ▸ hgt)
          rw [interpQ, if_neg hnat0, if_pos hat1, hae, hb]
          have hne10 : t1 - t0 ≠ 0 := sub_ne_zero.mpr (ne_of_gt h01)
          field_simp
        · rw [interpQ, if_neg hnat0, if_neg hat1]
          exact ih hs' a b h'

theorem sorted_head_le (s : List (ℚ × ℚ))
    (hs : List.Sorted (fun p q : ℚ × ℚ => p.1 ≤ q.1) s)
    {x : ℚ × ℚ} (hx : x ∈ s) : (s.headD (0, 0)).1 ≤ x.1 := by
  cases s with
  | nil => simp at hx
  | cons p rest =>
    rcases List.mem_cons.mp hx with heq | h2
    · rw [heq]
      simp
    · simpa using (List.sorted_cons.mp hs).1 x h2

theorem sorted_le_getLast (s : List (ℚ × ℚ))
    (hs : List.Sorted (fun p q : ℚ × ℚ => p.1 ≤ q.1) s)
    {x : ℚ × ℚ} (hx : x ∈ s) : ∀ d, x.1 ≤ (s.getLastD d).1 := by
  induction s generalizing x with
  | nil => simp at hx
  | cons p rest ih =>
    intro d
    rw [List.getLastD_cons]
    rcases List.mem_cons.mp hx with heq | h2
    · subst heq
      cases rest with
      | nil => simp
      | cons q rest' =>
        have hpq : x.1 ≤ q.1 := (List.sorted_cons.mp hs).1 q (List.mem_cons_self q rest')
        have hlast := ih (List.sorted_cons.mp hs).2 (List.mem_cons_self q rest') x
        exact le_trans hpq hlast
    · exact ih (List.sorted_cons.mp hs).2 h2 p

theorem headD_mem (s : List (ℚ × ℚ)) (h : s ≠ []) : s.headD (0, 0) ∈ s := by
  cases s with
  | nil => exact absurd rfl h
  | cons p rest => simp

theorem getLastD_mem (s : List (ℚ × ℚ)) (h : s ≠ []) : ∀ d, s.getLastD d ∈ s := by
  induction s with
  | nil => exact absurd rfl h
  | cons p rest ih =>
    intro d
    rw [List.getLastD_cons]
    cases rest with
    | nil => simp
    | cons q rest' =>
      exact List.mem_cons_of_mem p (ih (List.cons_ne_nil q rest') p)

/-- C8: for every non-empty curve with distinct time points, resampling the
curve onto its own original time points reproduces the original values
(within the claim's 1e-6 tolerance — the embedding is exact), and every
grid point strictly below (above) all curve times receives the value of the
curve point with the smallest (largest) time, i.e. the nearest boundary
value, never an extrapolated one. -/
theorem resample_idempotent_and_clamped (pts : List (ℚ × ℚ))
    (hne : pts ≠ []) (hnd : (pts.map Prod.fst).Nodup) :
    List.Forall₂ (fun a b => |a - b| ≤ (1e-6 : ℚ))
      (resample_curve pts (pts.map Prod.fst)) (pts.map Prod.snd) ∧
    (∀ g, (∀ p ∈ pts, g < p.1) →
      ∃ p ∈ pts, (∀ q ∈ pts, p.1 ≤ q.1) ∧ resample_curve pts [g] = [p.2]) ∧
    (∀ g, (∀ p ∈ pts, p.1 < g) →
      ∃ p ∈ pts, (∀ q ∈ pts, q.1 ≤ p.1) ∧ resample_curve pts [g] = [p.2]) := by
  have hperm := sortByT_perm pts
  have hsort := sortByT_sorted pts
  have hchain := sortByT_chain_lt pts hnd
  have hsne : sortByT pts ≠ [] := by
    intro h0
    have hlen := hperm.length_eq
    rw [h0] at hlen
    exact hne (List.length_eq_zero.mp hlen.symm)
  refine ⟨?_, ?_, ?_⟩
  · have hEq : resample_curve pts (pts.map Prod.fst) = pts.map Prod.snd := by
      simp only [resample_curve, if_neg hne, List.map_map]
      apply List.map_congr_left
      intro p hp
      have hmem_s : p ∈ sortByT pts := (hperm.mem_iff).mpr hp
      have hlo : ((sortByT pts).headD (0, 0)).1 ≤ p.1 := sorted_head_le _ hsort hmem_s
      have hhi : p.1 ≤ ((sortByT pts).getLastD (0, 0)).1 :=
        sorted_le_getLast _ hsort hmem_s (0, 0)
      have hclip : clipQ p.1 ((sortByT pts).headD (0, 0)).1
          ((sortByT pts).getLastD (0, 0)).1 = p.1 := by
        unfold clipQ
        rw [max_eq_left hlo, min_eq_left hhi]
      simp only [Function.comp_apply, hclip]
      exact interpQ_mem _ hchain p.1 p.2 (by simpa using hmem_s)
    rw [hEq]
    refine List.forall₂_same.mpr (fun x _ => ?_)
    simp only [sub_self, abs_zero]
    norm_num
  · intro g hg
    have hhead_mem : (sortByT pts).headD (0, 0) ∈ sortByT pts := headD_mem _ hsne
    have hhead_pts : (sortByT pts).headD (0, 0) ∈ pts := (hperm.mem_iff).mp hhead_mem
    refine ⟨(sortByT pts).headD (0, 0), hhead_pts,
      fun q hq => sorted_head_le _ hsort ((hperm.mem_iff).mpr hq), ?_⟩
    simp only [resample_curve, if_neg hne, List.map_cons, List.map_nil]
    have hglo : g ≤ ((sortByT pts).headD (0, 0)).1 := le_of_lt (hg _ hhead_pts)
    have hlohi : ((sortByT pts).headD (0, 0)).1 ≤ ((sortByT pts).getLastD (0, 0)).1 :=
      sorted_le_getLast _ hsort hhead_mem (0, 0)
    have hclip : clipQ g ((sortByT pts).headD (0, 0)).1
        ((sortByT pts).getLastD (0, 0)).1 = ((sortByT pts).headD (0, 0)).1 := by
      unfold clipQ
      rw [max_eq_right hglo, min_eq_left hlohi]
    rw [hclip, interpQ_mem _ hchain _ _ (by simpa using hhead_mem)]
    cases hcase : sortByT pts with
    | nil => exact absurd hcase hsne
    | cons a t => simp [hcase]
  · intro g hg
    have hlast_mem : (sortByT pts).getLastD (0, 0) ∈ sortByT pts := getLastD_mem _ hsne (0, 0)
    have hlast_pts : (sortByT pts).getLastD (0, 0) ∈ pts := (hperm.mem_iff).mp hlast_mem
    refine ⟨(sortByT pts).getLastD (0, 0), hlast_pts,
      fun q hq => sorted_le_getLast _ hsort ((hperm.mem_iff).mpr hq) (0, 0), ?_⟩
    simp only [resample_curve, if_neg hne, List.map_cons, List.map_nil]
    have hghi : ((sortByT pts).getLastD (0, 0)).1 ≤ g := le_of_lt (hg _ hlast_pts)
    have hlohi : ((sortByT pts).headD (0, 0)).1 ≤ ((sortByT pts).getLastD (0, 0)).1 :=
      sorted_le_getLast _ hsort (headD_mem _ hsne) (0, 0)
    have hclip : clipQ g ((sortByT pts).headD (0, 0)).1
        ((sortByT pts).getLastD (0, 0)).1 = ((sortByT pts).getLastD (0, 0)).1 := by
      unfold clipQ
      rw [max_eq_left (le_trans hlohi hghi), min_eq_right hghi]
    rw [hclip, interpQ_mem _ hchain _ _ (by simpa using hlast_mem)]
    cases hcase : sortByT pts with
    | nil => exact absurd hcase hsne
    | cons a t =>
      simp only [hcase, List.getLastD_eq_getLast?]
      rfl

/-- Witness for C8 on the two-point curve `[(0, 5), (1, 7)]`. -/
theorem resample_idempotent_and_clamped_witness :
    (([(0, 5), (1, 7)] : List (ℚ × ℚ)) ≠ [] ∧
      (([(0, 5), (1, 7)] : List (ℚ × ℚ)).map Prod.fst).Nodup) ∧
    (List.Forall₂ (fun a b => |a - b| ≤ (1e-6 : ℚ))
      (resample_curve [(0, 5), (1, 7)] (([(0, 5), (1, 7)] : List (ℚ × ℚ)).map Prod.fst))
      (([(0, 5), (1, 7)] : List (ℚ × ℚ)).map Prod.snd) ∧
    (∀ g, (∀ p ∈ ([(0, 5), (1, 7)] : List (ℚ × ℚ)), g < p.1) →
      ∃ p ∈ ([(0, 5), (1, 7)] : List (ℚ × ℚ)),
        (∀ q ∈ ([(0, 5), (1, 7)] : List (ℚ × ℚ)), p.1 ≤ q.1) ∧
        resample_curve [(0, 5), (1, 7)] [g] = [p.2]) ∧
    (∀ g, (∀ p ∈ ([(0, 5), (1, 7)] : List (ℚ × ℚ)), p.1 < g) →
      ∃ p ∈ ([(0, 5), (1, 7)] : List (ℚ × ℚ)),
        (∀ q ∈ ([(0, 5), (1, 7)] : List (ℚ × ℚ)), q.1 ≤ p.1) ∧
        resample_curve [(0, 5), (1, 7)] [g] = [p.2])) :=
  ⟨⟨by simp, by norm_num⟩,
    resample_idempotent_and_clamped [(0, 5), (1, 7)] (by simp) (by norm_num)⟩

/-! ## Loudness: every dB value is ≤ 0 and the loudest frame is exactly 0 -/

theorem le_foldl_max {α : Type} [LinearOrder α] (l : List α) : ∀ a : α, a ≤ l.foldl max a := by
  induction l with
  | nil => intro a; simp
  | cons x xs ih =>
    intro a
    simp only [List.foldl_cons]
    exact le_trans (le_max_left a x) (ih (max a x))

theorem mem_le_foldl_max {α : Type} [LinearOrder α] (l : List α) :
    ∀ (a : α) {x : α}, x ∈ l → x ≤ l.foldl max a := by
  induction l with
  | nil => intro a x hx; simp at hx
  | cons y ys ih =>
    intro a x hx
    rcases List.mem_cons.mp hx with rfl | h2
    · simp only [List.foldl_cons]
      exact le_trans (le_max_right a x) (le_foldl_max ys (max a x))
    · simp only [List.foldl_cons]
      exact ih (max a y) h2

theorem foldl_max_mem {α : Type} [LinearOrder α] (l : List α) :
    ∀ a : α, l.foldl max a = a ∨ l.foldl max a ∈ l := by
  induction l with
  | nil => intro a; left; rfl
  | cons y ys ih =>
    intro a
    simp only [List.foldl_cons]
    rcases ih (max a y) with h | h
    · rcases max_cases a y with ⟨hm, _⟩ | ⟨hm, _⟩
      · left; rw [h, hm]
      · right; rw [h, hm]; exact List.mem_cons_self y ys
    · right; exact List.mem_cons_of_mem y h

theorem foldl_max_le {α : Type} [LinearOrder α] (l : List α) :
    ∀ a c : α, a ≤ c → (∀ x ∈ l, x ≤ c) → l.foldl max a ≤ c := by
  induction l with
  | nil => intro a c hac _; simpa using hac
  | cons y ys ih =>
    intro a c hac h
    simp only [List.foldl_cons]
    exact ih (max a y) c (max_le hac (h y (List.mem_cons_self y ys)))
      (fun x hx => h x (List.mem_cons_of_mem y hx))

theorem le_maxListR (l : List ℝ) {x : ℝ} (hx : x ∈ l) : x ≤ maxListR l := by
  cases l with
  | nil => simp at hx
  | cons y ys =>
    simp only [maxListR]
    rcases List.mem_cons.mp hx with rfl | h2
    · exact le_foldl_max ys x
    · exact mem_le_foldl_max ys y h2

theorem maxListR_mem (l : List ℝ) (h : l ≠ []) : maxListR l ∈ l := by
  cases l with
  | nil => exact absurd rfl h
  | cons y ys =>
    simp only [maxListR]
    rcases foldl_max_mem ys y with h1 | h1
    · rw [h1]; exact List.mem_cons_self y ys
    · exact List.mem_cons_of_mem y h1

theorem maxListR_le (l : List ℝ) {c : ℝ} (h : l ≠ []) (hc : ∀ x ∈ l, x ≤ c) :
    maxListR l ≤ c := by
  cases l with
  | nil => exact absurd rfl h
  | cons y ys =>
    simp only [maxListR]
    exact foldl_max_le ys y c (hc y (List.mem_cons_self y ys))
      (fun x hx => hc x (List.mem_cons_of_mem y hx))

theorem amplitudeToDb_nonpos_and_max (S : List ℝ) (ref : ℝ) (hne : S ≠ [])
    (hpos : ∀ x ∈ S, 0 < x) (href : ref ∈ S) (hmax : ∀ x ∈ S, x ≤ ref) :
    (∀ v ∈ amplitudeToDb S ref, v ≤ 0) ∧ (0 : ℝ) ∈ amplitudeToDb S ref := by
  simp only [amplitudeToDb]
  have hf_le : ∀ x ∈ S,
      10 * Real.logb 10 (max ((1e-5 : ℝ) ^ 2) (x ^ 2))
        - 10 * Real.logb 10 (max ((1e-5 : ℝ) ^ 2) (ref ^ 2)) ≤ 0 := by
    intro x hx
    have hx0 := hpos x hx
    have hxr := hmax x hx
    have hsq : x ^ 2 ≤ ref ^ 2 := pow_le_pow_left₀ (le_of_lt hx0) hxr 2
    have hm : max ((1e-5 : ℝ) ^ 2) (x ^ 2) ≤ max ((1e-5 : ℝ) ^ 2) (ref ^ 2) :=
      max_le_max le_rfl hsq
    have hp1 : (0 : ℝ) < max ((1e-5 : ℝ) ^ 2) (x ^ 2) :=
      lt_max_of_lt_left (by norm_num)
    have hlb := (Real.logb_le_logb (by norm_num : (1 : ℝ) < 10) hp1
      (lt_of_lt_of_le hp1 hm)).mpr hm
    linarith
  have hf_ref :
      10 * Real.logb 10 (max ((1e-5 : ℝ) ^ 2) (ref ^ 2))
        - 10 * Real.logb 10 (max ((1e-5 : ℝ) ^ 2) (ref ^ 2)) = 0 := sub_self _
  have h0mem : (0 : ℝ) ∈ S.map (fun x =>
      10 * Real.logb 10 (max ((1e-5 : ℝ) ^ 2) (x ^ 2))
        - 10 * Real.logb 10 (max ((1e-5 : ℝ) ^ 2) (ref ^ 2))) :=
    List.mem_map.mpr ⟨ref, href, hf_ref⟩
  have hlog_ne : S.map (fun x =>
      10 * Real.logb 10 (max ((1e-5 : ℝ) ^ 2) (x ^ 2))
        - 10 * Real.logb 10 (max ((1e-5 : ℝ) ^ 2) (ref ^ 2))) ≠ [] := by
    intro h0
    exact hne (List.map_eq_nil_iff.mp h0)
  have hall_log : ∀ v ∈ S.map (fun x =>
      10 * Real.logb 10 (max ((1e-5 : ℝ) ^ 2) (x ^ 2))
        - 10 * Real.logb 10 (max ((1e-5 : ℝ) ^ 2) (ref ^ 2))), v ≤ 0 := by
    intro v hv
    obtain ⟨x, hx, rfl⟩ := List.mem_map.mp hv
    exact hf_le x hx
  have hmax0 : maxListR (S.map (fun x =>
      10 * Real.logb 10 (max ((1e-5 : ℝ) ^ 2) (x ^ 2))
        - 10 * Real.logb 10 (max ((1e-5 : ℝ) ^ 2) (ref ^ 2)))) = 0 :=
    le_antisymm (maxListR_le _ hlog_ne hall_log) (le_maxListR _ h0mem)
  constructor
  · intro v hv
    obtain ⟨u, hu, rfl⟩ := List.mem_map.mp hv
    rw [hmax0]
    exact max_le (hall_log u hu) (by norm_num)
  · refine List.mem_map.mpr ⟨0, h0mem, ?_⟩
    rw [hmax0]
    norm_num

theorem loudnessDbOf_nonpos_and_max (rms : List ℝ) (hne : rms ≠ []) :
    (∀ v ∈ loudnessDbOf rms, v ≤ 0) ∧ (0 : ℝ) ∈ loudnessDbOf rms := by
  simp only [loudnessDbOf]
  have hne' : rms.map (fun x => max x (1e-12 : ℝ)) ≠ [] := by
    intro h0
    exact hne (List.map_eq_nil_iff.mp h0)
  have hposall : ∀ x ∈ rms.map (fun x => max x (1e-12 : ℝ)), (0 : ℝ) < x := by
    intro x hx
    obtain ⟨z, hz, rfl⟩ := List.mem_map.mp hx
    exact lt_of_lt_of_le (by norm_num) (le_max_right z _)
  have hM_mem := maxListR_mem _ hne'
  have hMpos : 0 < maxListR (rms.map (fun x => max x (1e-12 : ℝ))) := hposall _ hM_mem
  rw [if_pos hMpos]
  exact amplitudeToDb_nonpos_and_max _ _ hne' hposall hM_mem
    (fun x hx => le_maxListR _ hx)

/-- C7: whenever the trimmed signal reaches the 2048-sample analysis window
and the RMS extractor returns a non-empty frame sequence (exactly the
inputs with a non-empty loudness curve), every `rms_db` value of the curve
is `≤ 0` and at least one point is exactly `0` — the recording's own
loudest frame. -/
theorem loudness_db_nonpos_max_zero (y : List ℚ) (sr : ℚ) (tr : TrimOut)
    (rmsO : List ℚ → List ℝ) (hlen : 2048 ≤ tr.ytrim.length)
    (hne : rmsO tr.ytrim ≠ []) :
    (analyzeLoudnessSig y sr tr rmsO).loudness_curve ≠ [] ∧
    (∀ p ∈ (analyzeLoudnessSig y sr tr rmsO).loudness_curve, p.2 ≤ 0) ∧
    ∃ p ∈ (analyzeLoudnessSig y sr tr rmsO).loudness_curve, p.2 = 0 := by
  simp only [analyzeLoudnessSig]
  rw [if_neg (by omega : ¬ tr.ytrim.length < 2048)]
  obtain ⟨hall, hzero⟩ := loudnessDbOf_nonpos_and_max (rmsO tr.ytrim) hne
  have hlen_t : (framesToTime (rmsO tr.ytrim).length sr 512).length
      = (rmsO tr.ytrim).length := by
    simp [framesToTime]
  have hlen_db : (loudnessDbOf (rmsO tr.ytrim)).length = (rmsO tr.ytrim).length := by
    simp [loudnessDbOf, amplitudeToDb]
  refine ⟨?_, ?_, ?_⟩
  · intro h0
    have hlz := congrArg List.length h0
    rw [List.length_zip, hlen_t, hlen_db] at hlz
    simp only [Nat.min_self, List.length_nil] at hlz
    exact hne (List.length_eq_zero.mp hlz)
  · intro p hp
    exact hall _ (List.of_mem_zip hp).2
  · obtain ⟨i, hi, hzi⟩ := List.mem_iff_getElem.mp hzero
    have hi2 : i < ((framesToTime (rmsO tr.ytrim).length sr 512).zip
        (loudnessDbOf (rmsO tr.ytrim))).length := by
      rw [List.length_zip, hlen_t, hlen_db]
      rw [hlen_db] at hi
      omega
    refine ⟨((framesToTime (rmsO tr.ytrim).length sr 512).zip
        (loudnessDbOf (rmsO tr.ytrim)))[i], List.getElem_mem hi2, ?_⟩
    rw [List.getElem_zip]
    exact hzi

/-- Witness for C7: a 2048-sample trimmed signal whose RMS oracle returns
one frame. -/
theorem loudness_db_nonpos_max_zero_witness :
    (2048 ≤ (List.replicate 2048 (0 : ℚ)).length ∧
      (fun _ : List ℚ => [(1 : ℝ)]) (List.replicate 2048 (0 : ℚ)) ≠ []) ∧
    ((analyzeLoudnessSig [] 1 ⟨List.replicate 2048 0, 0, 0⟩
        (fun _ => [(1 : ℝ)])).loudness_curve ≠ [] ∧
     (∀ p ∈ (analyzeLoudnessSig [] 1 ⟨List.replicate 2048 0, 0, 0⟩
        (fun _ => [(1 : ℝ)])).loudness_curve, p.2 ≤ 0) ∧
     ∃ p ∈ (analyzeLoudnessSig [] 1 ⟨List.replicate 2048 0, 0, 0⟩
        (fun _ => [(1 : ℝ)])).loudness_curve, p.2 = 0) :=
  ⟨⟨le_of_eq (List.length_replicate 2048 (0 : ℚ)).symm, List.cons_ne_nil _ _⟩,
    loudness_db_nonpos_max_zero [] 1 ⟨List.replicate 2048 0, 0, 0⟩
      (fun _ => [(1 : ℝ)]) (le_of_eq (List.length_replicate 2048 (0 : ℚ)).symm)
      (List.cons_ne_nil _ _)⟩

/-! ## Short-trim fallback behaviour -/

/-- C9 counterexample: with a 1-sample trimmed signal, `analyze_loudness`
returns the degenerate empty curve; analysing the untrimmed 2048-sample
signal (what the claimed fallback would produce) yields a non-empty curve,
so the loudness extractor does not fall back to the untrimmed signal. -/
theorem loudness_no_untrimmed_fallback_counterexample :
    (analyzeLoudnessSig (List.replicate 2048 (1 : ℚ)) 100 ⟨[1], 0, 1⟩
      (fun _ => [(1 : ℝ)])).loudness_curve = [] ∧
    (analyzeLoudnessSig (List.replicate 2048 (1 : ℚ)) 100
      ⟨List.replicate 2048 (1 : ℚ), 0, 1⟩ (fun _ => [(1 : ℝ)])).loudness_curve ≠ [] := by
  constructor
  · simp only [analyzeLoudnessSig]
    rw [if_pos (by norm_num : ([(1 : ℚ)] : List ℚ).length < 2048)]
  · simp only [analyzeLoudnessSig]
    rw [if_neg (by rw [List.length_replicate]; omega)]
    show ((framesToTime ([(1 : ℝ)]).length 100 512).zip (loudnessDbOf [(1 : ℝ)])) ≠ []
    simp [framesToTime, loudnessDbOf, amplitudeToDb]

/-- C9 (amended): when the trimmed signal is shorter than 2048 samples, the
tempo analysis falls back to the untrimmed signal — its beat-derived fields
equal those computed from `bt y` — while still reporting the computed trim
offsets and trimmed duration; the loudness analysis instead returns the
degenerate result (empty curve, null summary), also still reporting the
computed offsets. -/
theorem short_trim_fallback_amended (y : List ℚ) (sr : ℚ) (tr : TrimOut)
    (bt : List ℚ → ℚ × List ℚ) (rmsO : List ℚ → List ℝ)
    (h : tr.ytrim.length < 2048) :
    ((analyzeTempoSig y sr tr bt).tempo_curve
        = (tempoFromBeats (bt y).1 (bt y).2).tempo_curve ∧
     (analyzeTempoSig y sr tr bt).summary = (tempoFromBeats (bt y).1 (bt y).2).summary ∧
     (analyzeTempoSig y sr tr bt).tempo_interpretations
        = (tempoFromBeats (bt y).1 (bt y).2).tempo_interpretations ∧
     (analyzeTempoSig y sr tr bt).events = (tempoFromBeats (bt y).1 (bt y).2).events ∧
     (analyzeTempoSig y sr tr bt).trim_start_sec
        = (if sr ≠ 0 then (tr.startSamp : ℚ) / sr else 0) ∧
     (analyzeTempoSig y sr tr bt).trim_end_sec
        = (if sr ≠ 0 then (tr.endSamp : ℚ) / sr else 0) ∧
     (analyzeTempoSig y sr tr bt).duration_sec_trimmed
        = (if sr ≠ 0 then (tr.ytrim.length : ℚ) / sr else 0)) ∧
    ((analyzeLoudnessSig y sr tr rmsO).loudness_curve = [] ∧
     (analyzeLoudnessSig y sr tr rmsO).mean_db = none ∧
     (analyzeLoudnessSig y sr tr rmsO).dynamic_range_db = none ∧
     (analyzeLoudnessSig y sr tr rmsO).trim_start_sec
        = (if sr ≠ 0 then (tr.startSamp : ℚ) / sr else 0) ∧
     (analyzeLoudnessSig y sr tr rmsO).trim_end_sec
        = (if sr ≠ 0 then (tr.endSamp : ℚ) / sr else 0)) := by
  constructor
  · simp [analyzeTempoSig, if_pos h]
  · simp [analyzeLoudnessSig, if_pos h]

/-- Witness for C9 with a 1-sample trimmed signal. -/
theorem short_trim_fallback_amended_witness :
    (([(5 : ℚ)] : List ℚ).length < 2048 ∧ True) ∧
    (((analyzeTempoSig [2] 10 ⟨[5], 0, 1⟩ (fun l => (90, l))).tempo_curve
        = (tempoFromBeats ((fun l : List ℚ => ((90 : ℚ), l)) [2]).1
            ((fun l : List ℚ => ((90 : ℚ), l)) [2]).2).tempo_curve ∧
      (analyzeTempoSig [2] 10 ⟨[5], 0, 1⟩ (fun l => (90, l))).summary
        = (tempoFromBeats ((fun l : List ℚ => ((90 : ℚ), l)) [2]).1
            ((fun l : List ℚ => ((90 : ℚ), l)) [2]).2).summary ∧
      (analyzeTempoSig [2] 10 ⟨[5], 0, 1⟩ (fun l => (90, l))).tempo_interpretations
        = (tempoFromBeats ((fun l : List ℚ => ((90 : ℚ), l)) [2]).1
            ((fun l : List ℚ => ((90 : ℚ), l)) [2]).2).tempo_interpretations ∧
      (analyzeTempoSig [2] 10 ⟨[5], 0, 1⟩ (fun l => (90, l))).events
        = (tempoFromBeats ((fun l : List ℚ => ((90 : ℚ), l)) [2]).1
            ((fun l : List ℚ => ((90 : ℚ), l)) [2]).2).events ∧
      (analyzeTempoSig [2] 10 ⟨[5], 0, 1⟩ (fun l => (90, l))).trim_start_sec
        = (if (10 : ℚ) ≠ 0 then ((0 : ℕ) : ℚ) / 10 else 0) ∧
      (analyzeTempoSig [2] 10 ⟨[5], 0, 1⟩ (fun l => (90, l))).trim_end_sec
        = (if (10 : ℚ) ≠ 0 then ((1 : ℕ) : ℚ) / 10 else 0) ∧
      (analyzeTempoSig [2] 10 ⟨[5], 0, 1⟩ (fun l => (90, l))).duration_sec_trimmed
        = (if (10 : ℚ) ≠ 0 then (([(5 : ℚ)] : List ℚ).length : ℚ) / 10 else 0)) ∧
     ((analyzeLoudnessSig [2] 10 ⟨[5], 0, 1⟩ (fun _ => [])).loudness_curve = [] ∧
      (analyzeLoudnessSig [2] 10 ⟨[5], 0, 1⟩ (fun _ => [])).mean_db = none ∧
      (analyzeLoudnessSig [2] 10 ⟨[5], 0, 1⟩ (fun _ => [])).dynamic_range_db = none ∧
      (analyzeLoudnessSig [2] 10 ⟨[5], 0, 1⟩ (fun _ => [])).trim_start_sec
        = (if (10 : ℚ) ≠ 0 then ((0 : ℕ) : ℚ) / 10 else 0) ∧
      (analyzeLoudnessSig [2] 10 ⟨[5], 0, 1⟩ (fun _ => [])).trim_end_sec
        = (if (10 : ℚ) ≠ 0 then ((1 : ℕ) : ℚ) / 10 else 0))) :=
  ⟨⟨by norm_num, trivial⟩,
    short_trim_fallback_amended [2] 10 ⟨[5], 0, 1⟩ (fun l => (90, l)) (fun _ => [])
      (by norm_num)⟩

/-! ## Insights: the Tempo consistency card ignores the reference -/

/-- C10: the "Tempo consistency" card produced by `build_insights` depends
only on the student's `tempo_stability_cv`; two inputs differing only in
the reference recording's `tempo_stability_cv` yield identical cards (the
reference value is read at analysis.py line 379 but never used). -/
theorem tempo_consistency_card_independent_of_reference_cv
    (s r : SummaryIn) (c : CompIn) (x y : Option ℚ) :
    (buildInsights s { r with tempo_stability_cv := x } c).filter
        (fun card => card.title == "Tempo consistency")
      = (buildInsights s { r with tempo_stability_cv := y } c).filter
        (fun card => card.title == "Tempo consistency") := by
  cases r
  rfl
